import Mathlib

/- Verification of the realtime voice session engine of the sensei-ai
repository.  The engine is duplicated, with small variations, across four
components (LiveSensei, OralEvaluator, VoiceCoder, GoalCollector); the
definitions below are shallow embeddings of the shared playback scheduler,
the per-component tool dispatch and error handlers, the retry-count
lifecycle, the guardian recovery counter, and the PCM wire codec.
Timestamps and durations are modelled as rationals. -/

/-- Playback scheduler state shared by all four session components:
`nextStartTime` is the `nextStartTimeRef` clock offset (the end of the
already scheduled audio) and `liveSources` counts the entries of
`sourcesRef` (buffer sources scheduled and not yet stopped). -/
structure PlaybackState where
  nextStartTime : ℚ
  liveSources : ℕ
deriving DecidableEq, Repr

/-- `if (nextStartTimeRef.current < now) nextStartTimeRef.current = now`:
the start time chosen for a chunk arriving at context time `now`. -/
def advanceStart (offset now : ℚ) : ℚ :=
  if offset < now then now else offset

/-- The audio branch of `onmessage`: schedule one decoded chunk of duration
`dur` arriving at context time `now`; returns the updated scheduler state
paired with the chosen start time (`source.start(nextStartTimeRef.current)`
followed by `nextStartTimeRef.current += buffer.duration`). -/
def enqueueChunk (ps : PlaybackState) (now dur : ℚ) : PlaybackState × ℚ :=
  let start := advanceStart ps.nextStartTime now
  ({ nextStartTime := start + dur, liveSources := ps.liveSources + 1 }, start)

/-- The start times chosen by a run of inbound audio chunks `(now, dur)`
handled in order from state `ps`. -/
def scheduleStarts (ps : PlaybackState) : List (ℚ × ℚ) → List ℚ
  | [] => []
  | c :: rest =>
    (enqueueChunk ps c.1 c.2).2 :: scheduleStarts (enqueueChunk ps c.1 c.2).1 rest

/-- Each chunk of the run arrives no later than the end of the audio
scheduled before it (`t_{i+1} <= offset_i`). -/
def arrivesTimely (ps : PlaybackState) : List (ℚ × ℚ) → Bool
  | [] => true
  | c :: rest =>
    decide (c.1 ≤ ps.nextStartTime) && arrivesTimely (enqueueChunk ps c.1 c.2).1 rest

theorem advanceStart_eq_max (offset now : ℚ) :
    advanceStart offset now = max now offset := by
  unfold advanceStart
  rcases lt_or_ge offset now with h | h
  · simp [if_pos h, max_eq_left h.le]
  · simp [if_neg (not_lt.mpr h), max_eq_right h]

theorem le_advanceStart (offset now : ℚ) : offset ≤ advanceStart offset now := by
  rw [advanceStart_eq_max]; exact le_max_right _ _

theorem advanceStart_of_le {offset now : ℚ} (h : now ≤ offset) :
    advanceStart offset now = offset := by
  rw [advanceStart_eq_max]; exact max_eq_right h

theorem scheduleStarts_lower_bound (chunks : List (ℚ × ℚ)) :
    ∀ ps : PlaybackState, (∀ c ∈ chunks, 0 ≤ c.2) →
      ∀ x ∈ scheduleStarts ps chunks, ps.nextStartTime ≤ x := by
  induction chunks with
  | nil => intro ps _ x hx; simp [scheduleStarts] at hx
  | cons c rest ih =>
    intro ps hd x hx
    simp only [scheduleStarts, List.mem_cons] at hx
    rcases hx with hx | hx
    · subst hx; exact le_advanceStart _ _
    · have h1 := ih (enqueueChunk ps c.1 c.2).1
        (fun q hq => hd q (List.mem_cons_of_mem _ hq)) x hx
      have h2 : ps.nextStartTime ≤ (enqueueChunk ps c.1 c.2).1.nextStartTime := by
        simp only [enqueueChunk]
        have := le_advanceStart ps.nextStartTime c.1
        have hc : 0 ≤ c.2 := hd c (List.mem_cons_self _ _)
        linarith
      linarith

theorem scheduleStarts_chain (chunks : List (ℚ × ℚ)) :
    ∀ ps : PlaybackState, (∀ c ∈ chunks, 0 ≤ c.2) →
      List.Chain' (· ≤ ·) (scheduleStarts ps chunks) := by
  induction chunks with
  | nil => intro ps _; simp [scheduleStarts]
  | cons c rest ih =>
    intro ps hd
    simp only [scheduleStarts]
    rw [List.chain'_cons']
    constructor
    · intro y hy
      have hy2 : y ∈ scheduleStarts (enqueueChunk ps c.1 c.2).1 rest :=
        List.mem_of_mem_head? hy
      have h1 := scheduleStarts_lower_bound rest (enqueueChunk ps c.1 c.2).1
        (fun q hq => hd q (List.mem_cons_of_mem _ hq)) y hy2
      have hc : 0 ≤ c.2 := hd c (List.mem_cons_self _ _)
      simp only [enqueueChunk] at h1
      simp only [enqueueChunk]
      linarith
    · exact ih _ (fun q hq => hd q (List.mem_cons_of_mem _ hq))

theorem backToBack_aux (chunks : List (ℚ × ℚ)) :
    ∀ ps : PlaybackState, arrivesTimely ps chunks = true →
      List.Chain' (fun a b : ℚ × ℚ => b.1 = a.1 + a.2)
        ((scheduleStarts ps chunks).zip (chunks.map Prod.snd)) ∧
      ∀ p ∈ ((scheduleStarts ps chunks).zip (chunks.map Prod.snd)).head?,
        p.1 = ps.nextStartTime := by
  induction chunks with
  | nil => intro ps _; simp [scheduleStarts]
  | cons c rest ih =>
    intro ps ht
    simp only [arrivesTimely, Bool.and_eq_true, decide_eq_true_eq] at ht
    obtain ⟨h1, h2⟩ := ht
    have hstart : (enqueueChunk ps c.1 c.2).2 = ps.nextStartTime := by
      simp only [enqueueChunk]; exact advanceStart_of_le h1
    obtain ⟨ihchain, ihhead⟩ := ih (enqueueChunk ps c.1 c.2).1 h2
    simp only [scheduleStarts, List.map_cons, List.zip_cons_cons]
    constructor
    · rw [List.chain'_cons']
      refine ⟨?_, ihchain⟩
      intro p hp
      have hfst := ihhead p hp
      rw [hfst, hstart]
      simp only [enqueueChunk]
      rw [advanceStart_of_le h1]
    · intro p hp
      simp only [List.head?_cons, Option.mem_def, Option.some.injEq] at hp
      rw [← hp, hstart]

/-- C1: each inbound audio chunk starts at `max(now, playbackClockOffset)`
and the offset advances by exactly the chunk's duration; consequently the
scheduled start times of any run of chunks with non-negative durations are
non-decreasing, and whenever every chunk after the first arrives no later
than the end of the previously scheduled audio, each start time equals the
previous start time plus the previous duration (no gap, no overlap). -/
theorem c1_backToBack_scheduling (ps : PlaybackState) (chunks : List (ℚ × ℚ))
    (hd : ∀ c ∈ chunks, 0 ≤ c.2) :
    (∀ now dur : ℚ, (enqueueChunk ps now dur).2 = max now ps.nextStartTime ∧
      (enqueueChunk ps now dur).1.nextStartTime = (enqueueChunk ps now dur).2 + dur) ∧
    List.Chain' (· ≤ ·) (scheduleStarts ps chunks) ∧
    (∀ c rest, chunks = c :: rest →
      arrivesTimely (enqueueChunk ps c.1 c.2).1 rest = true →
      List.Chain' (fun a b : ℚ × ℚ => b.1 = a.1 + a.2)
        ((scheduleStarts ps chunks).zip (chunks.map Prod.snd))) := by
  refine ⟨?_, scheduleStarts_chain chunks ps hd, ?_⟩
  · intro now dur
    exact ⟨by simp [enqueueChunk, advanceStart_eq_max], by simp [enqueueChunk]⟩
  · intro c rest hchunks htimely
    subst hchunks
    obtain ⟨ihchain, ihhead⟩ := backToBack_aux rest (enqueueChunk ps c.1 c.2).1 htimely
    simp only [scheduleStarts, List.map_cons, List.zip_cons_cons]
    rw [List.chain'_cons']
    refine ⟨?_, ihchain⟩
    intro p hp
    have hfst := ihhead p hp
    rw [hfst]
    simp [enqueueChunk]

/-- Witness for C1: the spec scenario of two 250 ms chunks arriving at
t = 0 and t = 0.1 — the second is scheduled at 0.25, back to back. -/
theorem c1_backToBack_scheduling_witness :
    List.Chain' (· ≤ ·)
      (scheduleStarts ⟨0, 0⟩ [((0 : ℚ), (1/4 : ℚ)), (1/10, 1/4)]) ∧
    List.Chain' (fun a b : ℚ × ℚ => b.1 = a.1 + a.2)
      ((scheduleStarts ⟨0, 0⟩ [((0 : ℚ), (1/4 : ℚ)), (1/10, 1/4)]).zip
        ([((0 : ℚ), (1/4 : ℚ)), (1/10, 1/4)].map Prod.snd)) := by
  have hd : ∀ c ∈ [((0 : ℚ), (1/4 : ℚ)), (1/10, 1/4)], 0 ≤ c.2 := by
    intro c hc
    fin_cases hc <;> norm_num
  have ht : arrivesTimely (enqueueChunk ⟨0, 0⟩ ((0 : ℚ), (1/4 : ℚ)).1 ((0 : ℚ), (1/4 : ℚ)).2).1
      [((1/10 : ℚ), (1/4 : ℚ))] = true := by
    norm_num [arrivesTimely, enqueueChunk, advanceStart]
  have h := c1_backToBack_scheduling ⟨0, 0⟩ [((0 : ℚ), (1/4 : ℚ)), (1/10, 1/4)] hd
  exact ⟨h.2.1, h.2.2 _ _ rfl ht⟩

/-- The `interrupted` branch of `onmessage` in LiveSensei, VoiceCoder and
GoalCollector: each scheduled source is stopped inside a try/catch
(`sourcesRef.current.forEach(s => { try { s.stop(); } catch(e) {} })`),
the set is cleared, and `nextStartTimeRef.current = 0`. -/
def interruptPlayback (_ps : PlaybackState) : PlaybackState :=
  { nextStartTime := 0, liveSources := 0 }

/-- The OralEvaluator `onmessage` callback has no `interrupted` branch: an
inbound interrupted signal leaves its playback state unchanged. -/
def oralEvaluatorOnInterrupted (ps : PlaybackState) : PlaybackState := ps

/-- Counterexample to C2 as stated: at context time 5 with one chunk
scheduled up to time 5, the interrupt branch leaves the playback clock
offset at 0, not at the current time, and the OralEvaluator variant does
not stop the outstanding chunk at all. -/
theorem c2_interrupt_counterexample :
    (interruptPlayback ⟨5, 1⟩).nextStartTime ≠ 5 ∧
    (oralEvaluatorOnInterrupted ⟨5, 1⟩).liveSources ≠ 0 := by
  constructor
  · norm_num [interruptPlayback]
  · norm_num [oralEvaluatorOnInterrupted]

/-- C2 amended: in LiveSensei, VoiceCoder and GoalCollector the interrupt
branch stops every outstanding chunk and resets the playback clock offset
to 0 (not to the current time; since 0 is at or before any context time,
the next enqueued chunk starts at `max(now, 0)`, i.e. at the then-current
time); the handling is total and idempotent and safe with zero chunks
outstanding; the OralEvaluator variant ignores the interrupted signal. -/
theorem c2_interrupt_amended :
    (∀ ps : PlaybackState, interruptPlayback ps = ⟨0, 0⟩ ∧
      interruptPlayback (interruptPlayback ps) = interruptPlayback ps) ∧
    (∀ ps : PlaybackState, ∀ now dur : ℚ,
      (enqueueChunk (interruptPlayback ps) now dur).2 = max now 0) ∧
    (∀ ps : PlaybackState, oralEvaluatorOnInterrupted ps = ps) := by
  refine ⟨fun ps => ⟨rfl, rfl⟩, fun ps now dur => ?_, fun ps => rfl⟩
  simp [interruptPlayback, enqueueChunk, advanceStart_eq_max]

/-- A structured function call received from the remote side. -/
structure ToolCall where
  id : String
  name : String
deriving DecidableEq, Repr

/-- A tool response sent back over the channel
(`sendToolResponse({ functionResponses: [{ id, name, response }] })`). -/
structure ToolResult where
  id : String
  name : String
  result : String
deriving DecidableEq, Repr

/-- The LiveSensei `onmessage` tool branch for one function call `fc`
(lines 240-267): a chain of name comparisons.  Returns the React state
setters invoked (the only part guarded by `mounted`) paired with the tool
responses sent (sent unconditionally); an unrecognized name falls through
with no response. -/
def liveSenseiHandleCall (mounted : Bool) (fc : ToolCall) : List String × List ToolResult :=
  if fc.name = "update_progress" then
    ((if mounted then ["onProgressUpdate"] else []), [⟨fc.id, fc.name, "ok"⟩])
  else if fc.name = "generate_resource" then
    ((if mounted then ["setCurrentResource"] else []), [⟨fc.id, fc.name, "resource_displayed"⟩])
  else ([], [])

/-- The OralEvaluator `onmessage` tool branch for one function call
(lines 159-174): only `display_question` is recognized. -/
def oralEvaluatorHandleCall (mounted : Bool) (fc : ToolCall) : List String × List ToolResult :=
  if fc.name = "display_question" then
    ((if mounted then ["setCurrentQuestion", "setSelectedOption"] else []),
      [⟨fc.id, fc.name, "displayed"⟩])
  else ([], [])

/-- Counterexample to C3 as stated: a ToolCall whose name has no handler
produces zero ToolResults in both dispatchers — no generic failure result
is returned. -/
theorem c3_unknown_tool_counterexample :
    (liveSenseiHandleCall true ⟨"call-7", "unknown_tool"⟩).2 = [] ∧
    (oralEvaluatorHandleCall true ⟨"call-7", "unknown_tool"⟩).2 = [] ∧
    ([] : List ToolResult).length ≠ 1 := by
  refine ⟨rfl, rfl, by simp⟩

/-- C3 amended: a ToolCall whose name has a handler produces exactly one
ToolResult carrying the original call id (regardless of the mounted flag);
a ToolCall with an unrecognized name produces no ToolResult at all, and
the dispatch itself is total, so the session continues. -/
theorem c3_dispatch_amended (mounted : Bool) (fc : ToolCall) :
    (fc.name = "update_progress" →
      (liveSenseiHandleCall mounted fc).2 = [⟨fc.id, fc.name, "ok"⟩]) ∧
    (fc.name = "generate_resource" →
      (liveSenseiHandleCall mounted fc).2 = [⟨fc.id, fc.name, "resource_displayed"⟩]) ∧
    (fc.name ≠ "update_progress" → fc.name ≠ "generate_resource" →
      (liveSenseiHandleCall mounted fc).2 = []) ∧
    (fc.name = "display_question" →
      (oralEvaluatorHandleCall mounted fc).2 = [⟨fc.id, fc.name, "displayed"⟩]) ∧
    (fc.name ≠ "display_question" → (oralEvaluatorHandleCall mounted fc).2 = []) ∧
    (∀ r ∈ (liveSenseiHandleCall mounted fc).2, r.id = fc.id) ∧
    (∀ r ∈ (oralEvaluatorHandleCall mounted fc).2, r.id = fc.id) := by
  unfold liveSenseiHandleCall oralEvaluatorHandleCall
  by_cases h1 : fc.name = "update_progress" <;>
    by_cases h2 : fc.name = "generate_resource" <;>
      by_cases h3 : fc.name = "display_question" <;>
        simp_all

/-- Witness for C3 amended at a concrete call: `update_progress` gets one
result with the call's id from LiveSensei and none from OralEvaluator. -/
theorem c3_dispatch_amended_witness :
    (liveSenseiHandleCall true ⟨"id1", "update_progress"⟩).2 =
      [⟨"id1", "update_progress", "ok"⟩] ∧
    (oralEvaluatorHandleCall true ⟨"id1", "update_progress"⟩).2 = [] := by
  refine ⟨(c3_dispatch_amended true ⟨"id1", "update_progress"⟩).1 rfl,
    (c3_dispatch_amended true ⟨"id1", "update_progress"⟩).2.2.2.2.1 (by decide)⟩

/-- `needle` is a leading segment of `hay`. -/
def prefixMatches : List Char → List Char → Bool
  | [], _ => true
  | _ :: _, [] => false
  | a :: as, b :: bs => a == b && prefixMatches as bs

/-- `needle` occurs contiguously somewhere in `hay`. -/
def containsSeq (needle : List Char) : List Char → Bool
  | [] => prefixMatches needle []
  | c :: t => prefixMatches needle (c :: t) || containsSeq needle t

/-- JavaScript `hay.includes(needle)`. -/
def strIncludes (hay needle : String) : Bool :=
  containsSeq needle.toList hay.toList

/-- JavaScript `hay.toLowerCase().includes(needle)` (character-wise
lowercasing suffices for the ASCII markers the code matches). -/
def lowerIncludes (hay needle : String) : Bool :=
  containsSeq needle.toList (hay.toList.map Char.toLower)

/-- A JavaScript error as the handlers observe it. -/
structure JsError where
  name : String
  msg : String
deriving DecidableEq, Repr

/-- Lines 106-123 of LiveSensei `startSession` (identical in the other
three components): the classification of a `getUserMedia` failure as a
permission error. -/
def isPermissionError (e : JsError) : Bool :=
  e.name == "NotAllowedError" || e.name == "PermissionDeniedError" ||
  e.name == "SecurityError" ||
  lowerIncludes e.msg "permission denied" ||
  lowerIncludes e.msg "denied" ||
  lowerIncludes e.msg "blocked"

/-- The `getUserMedia` catch block rethrows: permission errors become
`new Error("MICROPHONE_DENIED")`, anything else is rethrown as is. -/
def micCatchRethrow (e : JsError) : JsError :=
  if isPermissionError e then ⟨"Error", "MICROPHONE_DENIED"⟩ else e

/-- What an error handler decides: surface a terminal error message, or
schedule a retry (`setTimeout(() => setRetryCount(c => c + 1), delay)`)
with the retry count it will produce and the delay in milliseconds. -/
inductive SessionOutcome where
  | failTerminal (reason : String)
  | scheduleRetry (newCount : ℕ) (delayMs : ℚ)
deriving DecidableEq, Repr

/-- The LiveSensei / VoiceCoder backoff delay:
`Math.min(1000 * Math.pow(1.5, retryCount), 10000)`. -/
def backoffDelay (retryCount : ℕ) : ℚ :=
  min (1000 * (3 / 2 : ℚ) ^ retryCount) 10000

/-- Lines 351-379 of LiveSensei: the `startSession` catch block. -/
def liveSenseiStartCatch (retryCount : ℕ) (e : JsError) : SessionOutcome :=
  if e.msg == "MICROPHONE_DENIED" then .failTerminal "MICROPHONE_DENIED"
  else if strIncludes e.msg "Microphone access denied" || e.name == "NotAllowedError" then
    .failTerminal "MICROPHONE_DENIED"
  else if (strIncludes e.msg "Network error" || strIncludes e.msg "Failed to fetch")
      && decide (retryCount < 5) then
    .scheduleRetry (retryCount + 1) (backoffDelay retryCount)
  else if retryCount < 3 then .scheduleRetry (retryCount + 1) 2000
  else .failTerminal "Connection Failed"

/-- A microphone-acquisition failure `e` during a session start at retry
count `retryCount`: the inner catch rethrows, the outer catch classifies. -/
def liveSenseiMicFailure (retryCount : ℕ) (e : JsError) : SessionOutcome :=
  liveSenseiStartCatch retryCount (micCatchRethrow e)

/-- C4: a microphone-permission failure (by error name or message marker),
at any retry count, moves the session start directly to the terminal
MICROPHONE_DENIED failure and never schedules a retry. -/
theorem c4_permission_denied_terminal (retryCount : ℕ) (e : JsError)
    (h : isPermissionError e = true) :
    liveSenseiMicFailure retryCount e = .failTerminal "MICROPHONE_DENIED" := by
  unfold liveSenseiMicFailure micCatchRethrow liveSenseiStartCatch
  simp [h]

/-- Witness for C4: a NotAllowedError at retry count 4 is terminal. -/
theorem c4_permission_denied_terminal_witness :
    isPermissionError ⟨"NotAllowedError", "Permission denied"⟩ = true ∧
    liveSenseiMicFailure 4 ⟨"NotAllowedError", "Permission denied"⟩ =
      .failTerminal "MICROPHONE_DENIED" := by
  refine ⟨by decide, c4_permission_denied_terminal 4 _ (by decide)⟩

/-- The LiveSensei / VoiceCoder transient-error test in `onerror`:
`errStr.includes("Network error") || errStr.includes("Failed to fetch") ||
errStr.includes("503") || errStr.includes("Internal error")`. -/
def isTransientLS (errStr : String) : Bool :=
  strIncludes errStr "Network error" || strIncludes errStr "Failed to fetch" ||
  strIncludes errStr "503" || strIncludes errStr "Internal error"

/-- The LiveSensei model-unavailable test in `onerror`. -/
def isModelUnavailable (errStr : String) : Bool :=
  strIncludes errStr "not implemented" || strIncludes errStr "not supported" ||
  strIncludes errStr "404"

/-- Lines 305-333 of LiveSensei: the `onerror` callback. -/
def liveSenseiOnError (retryCount : ℕ) (errStr : String) : SessionOutcome :=
  if isModelUnavailable errStr then
    .failTerminal "Voice Model Unavailable in Region."
  else if isTransientLS errStr && decide (retryCount < 5) then
    .scheduleRetry (retryCount + 1) (backoffDelay retryCount)
  else if retryCount < 3 then .scheduleRetry (retryCount + 1) 2000
  else .failTerminal "Connection Lost. Please check network."

/-- Lines 356-374 of VoiceCoder: its `onerror` callback (same policy as
LiveSensei, without the model-unavailable branch). -/
def voiceCoderOnError (retryCount : ℕ) (errStr : String) : SessionOutcome :=
  if isTransientLS errStr && decide (retryCount < 5) then
    .scheduleRetry (retryCount + 1) (backoffDelay retryCount)
  else if retryCount < 3 then .scheduleRetry (retryCount + 1) 2000
  else .failTerminal "Connection failed. Please check your network."

/-- The OralEvaluator transient-error test in `onerror`. -/
def isTransientOral (errStr : String) : Bool :=
  strIncludes errStr "Network error" || strIncludes errStr "Failed to fetch" ||
  strIncludes errStr "Internal error occurred"

/-- Lines 205-232 of OralEvaluator: its `onerror` callback retries
transient errors after a fixed 2000 ms delay, up to a ceiling of 5. -/
def oralEvaluatorOnError (retryCount : ℕ) (errStr : String) : SessionOutcome :=
  if isTransientOral errStr then
    if retryCount < 5 then .scheduleRetry (retryCount + 1) 2000
    else .failTerminal "Sensei is unable to connect. Please check your internet connection."
  else if retryCount < 3 then .scheduleRetry (retryCount + 1) 2000
  else .failTerminal "Internal connection error. Please try again."

/-- Counterexample to C5 as stated: the OralEvaluator variant retries a
transient error at retry count 0 after 2000 ms, not after the claimed
`min(1000 * 1.5^0, 10000) = 1000` ms. -/
theorem c5_fixed_delay_counterexample :
    oralEvaluatorOnError 0 "Network error" = .scheduleRetry 1 2000 ∧
    (2000 : ℚ) ≠ backoffDelay 0 := by
  refine ⟨rfl, ?_⟩
  norm_num [backoffDelay, min_def]

/-- C5 amended: in LiveSensei and VoiceCoder a transient (network / 503 /
internal) error at retry count n < 5 schedules retry n+1 after
`min(1000 * 1.5^n, 10000)` ms — strictly increasing over the retry counts
actually reached — and at n ≥ 5 the error is terminal; a non-transient
(and, for LiveSensei, non-model-unavailable) error gets a plain 2000 ms
retry up to a ceiling of 3 and is terminal afterwards.  The OralEvaluator
variant instead retries transient errors after a fixed 2000 ms delay up to
a ceiling of 5, then fails terminally. -/
theorem c5_backoff_amended (n : ℕ) (errStr : String) :
    (isModelUnavailable errStr = false → isTransientLS errStr = true → n < 5 →
      liveSenseiOnError n errStr = .scheduleRetry (n + 1) (backoffDelay n) ∧
      voiceCoderOnError n errStr = .scheduleRetry (n + 1) (backoffDelay n)) ∧
    (n + 1 < 5 → backoffDelay n < backoffDelay (n + 1)) ∧
    (isModelUnavailable errStr = false → isTransientLS errStr = true → 5 ≤ n →
      liveSenseiOnError n errStr = .failTerminal "Connection Lost. Please check network." ∧
      voiceCoderOnError n errStr = .failTerminal "Connection failed. Please check your network.") ∧
    (isModelUnavailable errStr = false → isTransientLS errStr = false → n < 3 →
      liveSenseiOnError n errStr = .scheduleRetry (n + 1) 2000) ∧
    (isModelUnavailable errStr = false → isTransientLS errStr = false → 3 ≤ n →
      liveSenseiOnError n errStr = .failTerminal "Connection Lost. Please check network.") ∧
    (isTransientLS errStr = false → n < 3 →
      voiceCoderOnError n errStr = .scheduleRetry (n + 1) 2000) ∧
    (isTransientLS errStr = false → 3 ≤ n →
      voiceCoderOnError n errStr = .failTerminal "Connection failed. Please check your network.") ∧
    (isTransientOral errStr = true → n < 5 →
      oralEvaluatorOnError n errStr = .scheduleRetry (n + 1) 2000) ∧
    (isTransientOral errStr = true → 5 ≤ n →
      oralEvaluatorOnError n errStr =
        .failTerminal "Sensei is unable to connect. Please check your internet connection.") := by
  refine ⟨?_, ?_, ?_, ?_, ?_, ?_, ?_, ?_, ?_⟩
  · intro h1 h2 h3
    constructor <;> simp [liveSenseiOnError, voiceCoderOnError, h1, h2, h3]
  · intro h
    have h4 : n < 4 := by omega
    interval_cases n <;> norm_num [backoffDelay, min_def]
  · intro h1 h2 h3
    have h5 : ¬ n < 5 := by omega
    have h3' : ¬ n < 3 := by omega
    constructor <;> simp [liveSenseiOnError, voiceCoderOnError, h1, h2, h5, h3']
  · intro h1 h2 h3
    simp [liveSenseiOnError, h1, h2, h3]
  · intro h1 h2 h3
    have h3' : ¬ n < 3 := by omega
    simp [liveSenseiOnError, h1, h2, h3']
  · intro h2 h3
    simp [voiceCoderOnError, h2, h3]
  · intro h2 h3
    have h3' : ¬ n < 3 := by omega
    simp [voiceCoderOnError, h2, h3']
  · intro h1 h2
    simp [oralEvaluatorOnError, h1, h2]
  · intro h1 h2
    have h5 : ¬ n < 5 := by omega
    simp [oralEvaluatorOnError, h1, h5]

/-- Witness for C5 amended: a "Network error" at retry count 2 retries
after `min(1000 * 1.5^2, 10000) = 2250` ms in LiveSensei, the next delay
is strictly larger, OralEvaluator retries it after a fixed 2000 ms, and a
non-transient "Quota exceeded" at retry count 2 gets VoiceCoder's plain
2000 ms retry. -/
theorem c5_backoff_amended_witness :
    liveSenseiOnError 2 "Network error" = .scheduleRetry 3 (backoffDelay 2) ∧
    backoffDelay 2 < backoffDelay 3 ∧
    oralEvaluatorOnError 2 "Network error" = .scheduleRetry 3 2000 ∧
    voiceCoderOnError 2 "Quota exceeded" = .scheduleRetry 3 2000 := by
  have h := c5_backoff_amended 2 "Network error"
  have h' := c5_backoff_amended 2 "Quota exceeded"
  exact ⟨(h.1 (by decide) (by decide) (by norm_num)).1,
    h.2.1 (by norm_num),
    h.2.2.2.2.2.2.2.1 (by decide) (by norm_num),
    h'.2.2.2.2.2.1 (by decide) (by norm_num)⟩

/-- The `SenseiCodeGuardian` singleton's recovery-budget state
(VoiceCoder.tsx): `recoveryAttempts` and `lastErrorTime` (ms). -/
structure GuardianState where
  recoveryAttempts : ℕ
  lastErrorTime : ℚ
deriving DecidableEq, Repr

/-- `MAX_RECOVERIES = 5`. -/
def MAX_RECOVERIES : ℕ := 5

/-- `SenseiCodeGuardian.shouldAttemptRecovery()`: resets the counter when
more than one minute has passed since the last recorded error, stamps the
current time, and reports whether the budget allows another recovery. -/
def shouldAttemptRecovery (g : GuardianState) (now : ℚ) : GuardianState × Bool :=
  let g1 := if now - g.lastErrorTime > 60000 then { g with recoveryAttempts := 0 } else g
  let g2 := { g1 with lastErrorTime := now }
  (g2, decide (g2.recoveryAttempts < MAX_RECOVERIES))

/-- `SenseiCodeGuardian.recordRecovery()`. -/
def recordRecovery (g : GuardianState) : GuardianState :=
  { g with recoveryAttempts := g.recoveryAttempts + 1 }

/-- Counterexample to C6 as stated: the session components' `retryCount`
has no time input at all, so a transient error arriving after an
arbitrarily long quiet gap with stored count 4 is counted as attempt 5,
not as attempt 1. -/
theorem c6_no_session_decay_counterexample :
    liveSenseiOnError 4 "Network error" = .scheduleRetry 5 (backoffDelay 4) ∧
    (5 : ℕ) ≠ 1 := by
  exact ⟨rfl, by norm_num⟩

/-- C6 amended: only the SenseiCodeGuardian recovery counter decays after
a quiet period — when `shouldAttemptRecovery` runs strictly more than
60 000 ms after `lastErrorTime` it resets `recoveryAttempts` to 0, permits
the recovery, and the following `recordRecovery` makes the count 1; the
session components' `retryCount` never decays with elapsed time (it is
reset only by a successful open or a manual retry). -/
theorem c6_guardian_decay_amended (g : GuardianState) (now : ℚ)
    (h : now - g.lastErrorTime > 60000) :
    (shouldAttemptRecovery g now).1.recoveryAttempts = 0 ∧
    (shouldAttemptRecovery g now).2 = true ∧
    (recordRecovery (shouldAttemptRecovery g now).1).recoveryAttempts = 1 := by
  simp [shouldAttemptRecovery, recordRecovery, if_pos h, MAX_RECOVERIES]

/-- Witness for C6 amended: an exhausted guardian (4 prior recoveries,
last error at t = 0) queried at t = 70 000 ms resets and counts the next
recovery as attempt 1. -/
theorem c6_guardian_decay_amended_witness :
    (shouldAttemptRecovery ⟨4, 0⟩ 70000).1.recoveryAttempts = 0 ∧
    (shouldAttemptRecovery ⟨4, 0⟩ 70000).2 = true ∧
    (recordRecovery (shouldAttemptRecovery ⟨4, 0⟩ 70000).1).recoveryAttempts = 1 :=
  c6_guardian_decay_amended ⟨4, 0⟩ 70000 (by norm_num)

/-- The React state a manual retry touches, in every session component:
the rendered error and the `retryCount` that keys the session effect. -/
structure RetryUiState where
  error : Option String
  retryCount : ℕ
deriving DecidableEq, Repr

/-- `handleManualRetry`: `setError(null); setRetryCount(0)` — identical in
LiveSensei, OralEvaluator, VoiceCoder and GoalCollector. -/
def handleManualRetry (_s : RetryUiState) : RetryUiState :=
  { error := none, retryCount := 0 }

/-- React dependency-array semantics of
`useEffect(startSession-wrapper, [retryCount])`: the session effect
re-runs exactly when the rendered `retryCount` value changed. -/
def sessionEffectReruns (oldCount newCount : ℕ) : Bool :=
  decide (oldCount ≠ newCount)

/-- C8: the code contradicts the claim.  Manual retry clears the error
and sets `retryCount` to 0, but the session effect is keyed on
`[retryCount]` alone, so when the terminal failure was reached at
`retryCount = 0` (as every MICROPHONE_DENIED failure on a first attempt
is) the value does not change and no fresh session start is initiated;
the restart happens only from a positive retry count. -/
theorem c8_manual_retry_bug :
    handleManualRetry ⟨some "MICROPHONE_DENIED", 0⟩ = ⟨none, 0⟩ ∧
    sessionEffectReruns
      (⟨some "MICROPHONE_DENIED", 0⟩ : RetryUiState).retryCount
      (handleManualRetry ⟨some "MICROPHONE_DENIED", 0⟩).retryCount = false ∧
    sessionEffectReruns
      (⟨some "MICROPHONE_DENIED", 2⟩ : RetryUiState).retryCount
      (handleManualRetry ⟨some "MICROPHONE_DENIED", 2⟩).retryCount = true := by
  exact ⟨rfl, rfl, rfl⟩

/-- A connection event as the retry-count lifecycle sees it. -/
inductive SessionEvent where
  | opened
  | errored (errStr : String)

/-- The LiveSensei `onopen` callback's effect on `retryCount`
(`if (mounted) { ...; setRetryCount(0); }`). -/
def liveSenseiOnOpen (mounted : Bool) (rc : ℕ) : ℕ :=
  if mounted then 0 else rc

/-- The OralEvaluator `onopen` callback's effect on `retryCount`. -/
def oralEvaluatorOnOpen (mounted : Bool) (rc : ℕ) : ℕ :=
  if mounted then 0 else rc

/-- The VoiceCoder `onopen` callback's effect on `retryCount`. -/
def voiceCoderOnOpen (mounted : Bool) (rc : ℕ) : ℕ :=
  if mounted then 0 else rc

/-- The GoalCollector `onopen` callback's effect on `retryCount`. -/
def goalCollectorOnOpen (mounted : Bool) (rc : ℕ) : ℕ :=
  if mounted then 0 else rc

/-- One mounted LiveSensei connection event's effect on `retryCount`:
`onopen` resets it, `onerror` advances it to the scheduled retry's count
or leaves it on a terminal error. -/
def retryCountStep (rc : ℕ) : SessionEvent → ℕ
  | .opened => liveSenseiOnOpen true rc
  | .errored s =>
    match liveSenseiOnError rc s with
    | .scheduleRetry n _ => n
    | .failTerminal _ => rc

/-- The retry count after a run of connection events. -/
def retryCountAfter (rc : ℕ) (evs : List SessionEvent) : ℕ :=
  evs.foldl retryCountStep rc

/-- C10: every session variant resets `retryCount` to zero in `onopen`,
so the accumulated retry budget is cleared by any successful open and the
retry count after a trace depends only on the errors after the last open,
counted from zero. -/
theorem c10_onopen_resets_retry_budget :
    (∀ rc : ℕ, liveSenseiOnOpen true rc = 0 ∧ oralEvaluatorOnOpen true rc = 0 ∧
      voiceCoderOnOpen true rc = 0 ∧ goalCollectorOnOpen true rc = 0) ∧
    (∀ (rc : ℕ) (evs1 evs2 : List SessionEvent),
      retryCountAfter rc (evs1 ++ SessionEvent.opened :: evs2) = retryCountAfter 0 evs2) := by
  refine ⟨fun rc => ⟨rfl, rfl, rfl, rfl⟩, fun rc evs1 evs2 => ?_⟩
  unfold retryCountAfter
  rw [List.foldl_append, List.foldl_cons]
  simp [retryCountStep, liveSenseiOnOpen]

/-- An inbound server message as LiveSensei's `onmessage` destructures it:
optional tool calls, an optional audio payload `(arrival time, duration)`,
and the interrupted flag. -/
structure LiveMsg where
  toolCalls : List ToolCall
  audioChunk : Option (ℚ × ℚ)
  interrupted : Bool

/-- Lines 238-297 of LiveSensei: the whole `onmessage` callback.  Returns
the updated playback state, the list of React state setters invoked (the
only part the `mounted` flag guards), and the tool responses sent.  Both
the tool responses and the audio scheduling run regardless of `mounted`. -/
def liveSenseiOnMessage (mounted : Bool) (ps : PlaybackState) (msg : LiveMsg) :
    PlaybackState × List String × List ToolResult :=
  let ui := msg.toolCalls.flatMap fun fc => (liveSenseiHandleCall mounted fc).1
  let sent := msg.toolCalls.flatMap fun fc => (liveSenseiHandleCall mounted fc).2
  let ps1 := match msg.audioChunk with
    | none => ps
    | some c => (enqueueChunk ps c.1 c.2).1
  let ps2 := if msg.interrupted then interruptPlayback ps1 else ps1
  (ps2, ui, sent)

/-- Lines 98-105 of LiveSensei `startSession`: the continuation after
`await getUserMedia`.  Track flags record whether a track was stopped.
If the component unmounted while the permission request was pending, every
acquired track is stopped and the start is abandoned (`return`); otherwise
the stream is stored in `streamRef` untouched. -/
def micGrantContinuation (mounted : Bool) (tracks : List Bool) :
    List Bool × Option (List Bool) :=
  if mounted then (tracks, some tracks)
  else (tracks.map fun _ => true, none)

/-- The resources a session owns; `true` means closed / stopped. -/
structure SessionResources where
  inputCtxClosed : Bool
  outputCtxClosed : Bool
  micTracksStopped : List Bool
  playback : PlaybackState
  channelClosed : Bool

/-- Lines 385-396 of LiveSensei: the `useEffect` cleanup run at unmount —
closes each audio context unless already closed, stops and drops every
stream track, stops every scheduled source, and closes the remote session
via `cleanupSession`.  The playback clock offset itself is not touched. -/
def unmountCleanup (r : SessionResources) : SessionResources :=
  { inputCtxClosed := true
    outputCtxClosed := true
    micTracksStopped := r.micTracksStopped.map fun _ => true
    playback := { nextStartTime := r.playback.nextStartTime, liveSources := 0 }
    channelClosed := true }

/-- Counterexample to C9 as stated: after the mounted flag is cleared, a
message carrying a tool call and an audio payload is not handled as a
no-op — the tool response is still sent over the channel and the audio
chunk is still scheduled on the output context. -/
theorem c9_unmounted_message_not_noop :
    (liveSenseiOnMessage false ⟨0, 0⟩
      ⟨[⟨"call-1", "update_progress"⟩], some (2, 1), false⟩).2.2 =
      [⟨"call-1", "update_progress", "ok"⟩] ∧
    (liveSenseiOnMessage false ⟨0, 0⟩
      ⟨[⟨"call-1", "update_progress"⟩], some (2, 1), false⟩).1.liveSources = 1 := by
  exact ⟨rfl, rfl⟩

theorem liveSenseiHandleCall_unmounted_ui (fc : ToolCall) :
    (liveSenseiHandleCall false fc).1 = [] := by
  unfold liveSenseiHandleCall
  split <;> simp_all
  split <;> simp_all

/-- C9 amended: once the mounted flag is cleared, the React state updates
of the message handler are suppressed, the permission-grant continuation
stops every acquired track and abandons the start, and the unmount
cleanup stops all stream tracks, closes both audio contexts, stops all
scheduled sources and closes the remote channel; the message handler,
however, still sends tool responses and still schedules inbound audio —
those parts are not guarded by the flag. -/
theorem c9_teardown_amended :
    (∀ (ps : PlaybackState) (msg : LiveMsg),
      (liveSenseiOnMessage false ps msg).2.1 = []) ∧
    (∀ tracks : List Bool,
      (micGrantContinuation false tracks).1.all id = true ∧
      (micGrantContinuation false tracks).2 = none) ∧
    (∀ r : SessionResources,
      (unmountCleanup r).inputCtxClosed = true ∧
      (unmountCleanup r).outputCtxClosed = true ∧
      (unmountCleanup r).micTracksStopped.all id = true ∧
      (unmountCleanup r).playback.liveSources = 0 ∧
      (unmountCleanup r).channelClosed = true) ∧
    (∀ (ps : PlaybackState) (msg : LiveMsg),
      (liveSenseiOnMessage false ps msg).2.2 =
        msg.toolCalls.flatMap fun fc => (liveSenseiHandleCall false fc).2) := by
  refine ⟨fun ps msg => ?_, fun tracks => ⟨?_, ?_⟩, fun r => ⟨rfl, rfl, ?_, rfl, rfl⟩,
    fun ps msg => rfl⟩
  · show (msg.toolCalls.flatMap fun fc => (liveSenseiHandleCall false fc).1) = []
    induction msg.toolCalls with
    | nil => rfl
    | cons fc t ih => simp [List.flatMap_cons, liveSenseiHandleCall_unmounted_ui, ih]
  · simp [micGrantContinuation, List.all_eq_true]
  · simp [micGrantContinuation]
  · simp [unmountCleanup, List.all_eq_true]

/-- Modelled from the spec: all four components import `createPcmBlob`,
`decodeAudioData` and `base64ToUint8Array` from `services/audio-utils`,
which is not among the provided sources.  Per spec §4.1 the encoder maps
each sample (here a rational standing for the float) to a signed 16-bit
integer via linear scaling, clamping out-of-range inputs to [-1, 1]
rather than wrapping. -/
def encodeSample (s : ℚ) : ℤ :=
  round (max (-1 : ℚ) (min 1 s) * 32767)

/-- Modelled from the spec: the little-endian two-byte two's-complement
wire form of one encoded 16-bit sample. -/
def int16ToBytes (i : ℤ) : List ℕ :=
  [(i % 65536).toNat % 256, (i % 65536).toNat / 256]

/-- Modelled from the spec: `encode` over a whole sample array
(`createPcmBlob`), concatenating the per-sample wire bytes. -/
def encodePcm : List ℚ → List ℕ
  | [] => []
  | s :: rest => int16ToBytes (encodeSample s) ++ encodePcm rest

/-- A little-endian byte pair read back as a signed 16-bit integer. -/
def bytesToInt16 (lo hi : ℕ) : ℤ :=
  if lo + 256 * hi < 32768 then (lo + 256 * hi : ℤ) else (lo + 256 * hi : ℤ) - 65536

/-- The float sample reconstructed from one 16-bit integer. -/
def decodedSample (i : ℤ) : ℚ := (i : ℚ) / 32767

/-- Modelled from the spec: `decode` (`decodeAudioData`) reconstructs the
sample array from little-endian 16-bit pairs and fails with a DecodeError
exactly on malformed (odd-length) input. -/
def decodePcm : List ℕ → Except String (List ℚ)
  | [] => .ok []
  | [_] => .error "DecodeError"
  | lo :: hi :: rest =>
    (decodePcm rest).map fun l => decodedSample (bytesToInt16 lo hi) :: l

theorem encodeSample_bounds (s : ℚ) :
    -32768 ≤ encodeSample s ∧ encodeSample s ≤ 32767 := by
  unfold encodeSample
  set c := max (-1 : ℚ) (min 1 s) * 32767 with hc
  have h1 : -32767 ≤ c := by
    have h := le_max_left (-1 : ℚ) (min 1 s)
    nlinarith
  have h2 : c ≤ 32767 := by
    have hm : max (-1 : ℚ) (min 1 s) ≤ 1 := max_le (by norm_num) (min_le_left _ _)
    nlinarith
  have h := abs_sub_round c
  rw [abs_le] at h
  constructor
  · have hq : ((-32769 : ℤ) : ℚ) < ((round c : ℤ) : ℚ) := by push_cast; linarith
    have := Int.cast_lt.mp hq
    omega
  · have hq : ((round c : ℤ) : ℚ) < ((32768 : ℤ) : ℚ) := by push_cast; linarith
    have := Int.cast_lt.mp hq
    omega

theorem decodePcm_int16_cons (e : ℤ) (he1 : -32768 ≤ e) (he2 : e ≤ 32767)
    (bs : List ℕ) :
    decodePcm (int16ToBytes e ++ bs) =
      (decodePcm bs).map fun l => decodedSample e :: l := by
  have hb : bytesToInt16 ((e % 65536).toNat % 256) ((e % 65536).toNat / 256) = e := by
    unfold bytesToInt16
    split <;> omega
  have he : decodePcm (((e % 65536).toNat % 256) :: ((e % 65536).toNat / 256) :: bs) =
      (decodePcm bs).map fun l =>
        decodedSample (bytesToInt16 ((e % 65536).toNat % 256) ((e % 65536).toNat / 256)) :: l := rfl
  unfold int16ToBytes
  simp only [List.cons_append, List.nil_append]
  rw [he, hb]

theorem decodePcm_encodePcm (xs : List ℚ) :
    decodePcm (encodePcm xs) = .ok (xs.map fun s => decodedSample (encodeSample s)) := by
  induction xs with
  | nil => rfl
  | cons s rest ih =>
    have hb := encodeSample_bounds s
    show decodePcm (int16ToBytes (encodeSample s) ++ encodePcm rest) = _
    rw [decodePcm_int16_cons _ hb.1 hb.2, ih]
    rfl

theorem decodePcm_odd_aux (n : ℕ) :
    ∀ bs : List ℕ, bs.length ≤ n → bs.length % 2 = 1 →
      decodePcm bs = .error "DecodeError" := by
  induction n with
  | zero =>
    intro bs h1 h2
    cases bs with
    | nil => simp at h2
    | cons lo t => simp at h1
  | succ n ih =>
    intro bs h1 h2
    cases bs with
    | nil => simp at h2
    | cons lo t =>
      cases t with
      | nil => rfl
      | cons hi rest =>
        have hr := ih rest (by simp [List.length_cons] at h1 ⊢; omega)
          (by simp [List.length_cons] at h2 ⊢; omega)
        have he : decodePcm (lo :: hi :: rest) =
            (decodePcm rest).map fun l => decodedSample (bytesToInt16 lo hi) :: l := rfl
        rw [he, hr]
        rfl

theorem decodePcm_even_aux (n : ℕ) :
    ∀ bs : List ℕ, bs.length ≤ n → bs.length % 2 = 0 →
      ∃ l, decodePcm bs = .ok l := by
  induction n with
  | zero =>
    intro bs h1 h2
    cases bs with
    | nil => exact ⟨[], rfl⟩
    | cons lo t => simp at h1
  | succ n ih =>
    intro bs h1 h2
    cases bs with
    | nil => exact ⟨[], rfl⟩
    | cons lo t =>
      cases t with
      | nil => simp at h2
      | cons hi rest =>
        obtain ⟨l, hl⟩ := ih rest (by simp [List.length_cons] at h1 ⊢; omega)
          (by simp [List.length_cons] at h2 ⊢; omega)
        have he : decodePcm (lo :: hi :: rest) =
            (decodePcm rest).map fun q => decodedSample (bytesToInt16 lo hi) :: q := rfl
        exact ⟨decodedSample (bytesToInt16 lo hi) :: l, by rw [he, hl]; rfl⟩

theorem decodedSample_encodeSample_close (s : ℚ) (h1 : -1 ≤ s) (h2 : s ≤ 1) :
    |decodedSample (encodeSample s) - s| ≤ 1 / 65534 := by
  have hclamp : max (-1 : ℚ) (min 1 s) = s := by
    rw [min_eq_right h2, max_eq_right h1]
  unfold decodedSample encodeSample
  rw [hclamp]
  have h := abs_sub_round (s * 32767)
  rw [abs_sub_comm] at h
  have heq : (round (s * 32767) : ℚ) / 32767 - s =
      ((round (s * 32767) : ℚ) - s * 32767) / 32767 := by ring
  rw [heq, abs_div]
  have habs : |(32767 : ℚ)| = 32767 := by norm_num
  rw [habs]
  calc |(round (s * 32767) : ℚ) - s * 32767| / 32767
      ≤ (1 / 2) / 32767 := by
        exact (div_le_div_iff_of_pos_right (by norm_num)).mpr h
    _ = 1 / 65534 := by norm_num

/-- C7 (codec modelled from the spec, `services/audio-utils` being absent
from the sources): encoding clamps out-of-range samples to the extreme
16-bit values instead of wrapping, in-range samples round-trip through
decode within half of one 16-bit quantization step, and decode fails with
a DecodeError exactly on odd-length byte input. -/
theorem c7_pcm_codec_roundtrip (xs : List ℚ) :
    decodePcm (encodePcm xs) = .ok (xs.map fun s => decodedSample (encodeSample s)) ∧
    (∀ s ∈ xs, -1 ≤ s → s ≤ 1 → |decodedSample (encodeSample s) - s| ≤ 1 / 65534) ∧
    (∀ s : ℚ, 1 ≤ s → encodeSample s = 32767) ∧
    (∀ s : ℚ, s ≤ -1 → encodeSample s = -32767) ∧
    (∀ bs : List ℕ, bs.length % 2 = 1 → decodePcm bs = .error "DecodeError") ∧
    (∀ bs : List ℕ, bs.length % 2 = 0 → ∃ l, decodePcm bs = .ok l) := by
  refine ⟨decodePcm_encodePcm xs, fun s _ h1 h2 => decodedSample_encodeSample_close s h1 h2,
    ?_, ?_, fun bs => decodePcm_odd_aux bs.length bs le_rfl,
    fun bs => decodePcm_even_aux bs.length bs le_rfl⟩
  · intro s hs
    unfold encodeSample
    rw [min_eq_left hs, max_eq_right (by norm_num : (-1 : ℚ) ≤ 1)]
    have he : ((1 : ℚ) * 32767) = ((32767 : ℤ) : ℚ) := by norm_num
    rw [he, round_intCast]
  · intro s hs
    unfold encodeSample
    have hmin : min (1 : ℚ) s = s := min_eq_right (by linarith)
    rw [hmin, max_eq_left hs]
    have he : ((-1 : ℚ) * 32767) = ((-32767 : ℤ) : ℚ) := by norm_num
    rw [he, round_intCast]

/-- Witness for C7: the samples 0 and 1/2 round-trip within quantization
error, an out-of-range sample 2 clamps to 32767, and the single stray
byte `[0]` fails to decode. -/
theorem c7_pcm_codec_roundtrip_witness :
    decodePcm (encodePcm [0, 1/2]) =
      .ok ([(0 : ℚ), 1/2].map fun s => decodedSample (encodeSample s)) ∧
    |decodedSample (encodeSample (1/2)) - 1/2| ≤ 1 / 65534 ∧
    encodeSample 2 = 32767 ∧
    decodePcm [0] = .error "DecodeError" := by
  have h := c7_pcm_codec_roundtrip [0, 1/2]
  exact ⟨h.1, h.2.1 (1/2) (by norm_num) (by norm_num) (by norm_num),
    h.2.2.1 2 (by norm_num), h.2.2.2.2.1 [0] (by norm_num)⟩
